import Mathlib

/-!
Verification of the analysis aggregation engine of k8sintellect.

Shallow embedding of the TypeScript sources:
  * analyzer.ts    (K8sAnalyzer: analyze, analyzePods event handling, summarizeIssues)
  * k8sgpt-adapter.ts (K8sGPTAdapter: runK8sGPTAnalysis, convertK8sGPTToIssues,
    determineSeverity)

JavaScript strings are modelled as Lean String, JS timestamps as Int
(milliseconds), absent (undefined) fields as Option, and exceptions as
Except String.  Helper functions model the exact JavaScript semantics the
code relies on (substring containment for String.prototype.includes,
split-on-every-separator for String.prototype.split, falsy checks for
short-circuit defaults such as x || y).
-/

/-- JS substring check helper: is the first list an infix of the second. -/
def isSubListOf [BEq α] : List α → List α → Bool
  | needle, [] => needle.isEmpty
  | needle, x :: xs => needle.isPrefixOf (x :: xs) || isSubListOf needle xs

/-- Model of JS String.prototype.includes: containsSub s sub is true iff sub
occurs inside s. -/
def containsSub (s sub : String) : Bool := isSubListOf sub.data s.data

/-- Model of JS String.prototype.toLowerCase (ASCII range, which covers all
keywords the classifier uses). -/
def lowerString (s : String) : String := ⟨s.data.map Char.toLower⟩

/-- Model of JS String.prototype.split with a one-character separator:
splits on every occurrence, keeping empty segments, so
splitChar c "a/b/c" = ["a","b","c"] and splitChar c "a/" = ["a",""]. -/
def splitCharList (c : Char) : List Char → List (List Char)
  | [] => [[]]
  | x :: xs =>
    let r := splitCharList c xs
    if x == c then [] :: r
    else
      match r with
      | [] => [[x]]
      | h :: t => (x :: h) :: t

/-- String-level wrapper of splitCharList. -/
def splitChar (c : Char) (s : String) : List String :=
  (splitCharList c s.data).map (fun l => ⟨l⟩)

/-- Model of JS Array.prototype.join. -/
def joinWith (sep : String) : List String → String
  | [] => ""
  | [x] => x
  | x :: y :: xs => x ++ sep ++ joinWith sep (y :: xs)

/-- Model of the JS idiom o || d for an optional string o: undefined and the
empty string are falsy and fall back to the default d. -/
def jsOrStr (o : Option String) (d : String) : String :=
  match o with
  | some s => if s == "" then d else s
  | none => d

/-- Model of JS template interpolation of a possibly-undefined string:
undefined prints as "undefined". -/
def jsTemplate : Option String → String
  | some s => s
  | none => "undefined"

/-- Severity levels of an Issue (analyzer.ts). -/
inductive Severity
  | critical
  | warning
  | info
deriving DecidableEq, Repr

/-- The Issue record of analyzer.ts.  The TypeScript field namespace is
renamed ns because namespace is a Lean keyword. -/
structure Issue where
  kind : String
  name : String
  ns : Option String
  problem : String
  solution : Option String
  severity : Severity
deriving DecidableEq, Repr

/-- summarizeIssues of analyzer.ts (lines 371-378). -/
def summarizeIssues (issues : List Issue) :
    Nat × Nat × Nat × Nat :=
  ( issues.length
  , (issues.filter (fun i => i.severity == Severity.critical)).length
  , (issues.filter (fun i => i.severity == Severity.warning)).length
  , (issues.filter (fun i => i.severity == Severity.info)).length )

/-- determineSeverity of k8sgpt-adapter.ts (lines 264-289), with the same
keyword checks in the same order. -/
def determineSeverity (errorText : String) : Severity :=
  let lowerText := lowerString errorText
  if containsSub lowerText "crash"
      || containsSub lowerText "failed"
      || containsSub lowerText "error"
      || containsSub lowerText "deadline exceeded"
      || containsSub lowerText "oomkilled" then
    Severity.critical
  else if containsSub lowerText "warning"
      || containsSub lowerText "pending"
      || containsSub lowerText "unschedulable" then
    Severity.warning
  else
    Severity.info

/-- The critical keyword set as the spec lists it. -/
def criticalKeywords : List String :=
  ["crash", "failed", "error", "deadline exceeded", "oomkilled"]

/-- The warning keyword set as the spec lists it. -/
def warningKeywords : List String :=
  ["warning", "pending", "unschedulable"]

/-- Spec-side predicate: the (already lowercased) text contains some
critical keyword. -/
def hasCriticalKeyword (t : String) : Bool :=
  criticalKeywords.any (fun k => containsSub t k)

/-- Spec-side predicate: the (already lowercased) text contains some
warning keyword. -/
def hasWarningKeyword (t : String) : Bool :=
  warningKeywords.any (fun k => containsSub t k)

/-- One entry of the error array of a k8sgpt result (k8sgpt-adapter.ts,
interface K8sGPTResult). -/
structure K8sGPTError where
  Text : String
  KubernetesDoc : String
  Sensitive : List String
deriving DecidableEq, Repr

/-- One k8sgpt result (k8sgpt-adapter.ts, interface K8sGPTResult).  The
error field is Option to model the runtime check for a missing or
non-array field; none stands for both. -/
structure K8sGPTResult where
  kind : String
  name : String
  error : Option (List K8sGPTError)
  details : String
  parentObject : String
deriving DecidableEq, Repr

/-- Parsed k8sgpt output (k8sgpt-adapter.ts, interface K8sGPTOutput).  The
results field is Option to model a missing or non-array field. -/
structure K8sGPTOutput where
  provider : String
  status : String
  problems : Int
  results : Option (List K8sGPTResult)
deriving DecidableEq, Repr

/-- The destructuring
  const [namespace, name] = result.name.includes('/')
    ? result.name.split('/') : [undefined, result.name]
from convertK8sGPTToIssues: JS split cuts at every '/' and the
destructuring keeps the first two segments. -/
def splitComposite (s : String) : Option String × Option String :=
  if containsSub s "/" then
    ((splitChar '/' s).get? 0, (splitChar '/' s).get? 1)
  else
    (none, some s)

/-- Conversion of one k8sgpt result into issues: the body of the loop of
convertK8sGPTToIssues (k8sgpt-adapter.ts lines 234-256). -/
def convertResult (result : K8sGPTResult) : List Issue :=
  let nsName := splitComposite result.name
  match result.error with
  | none => []
  | some errs =>
    errs.map (fun e =>
      { kind := result.kind
      , name := jsOrStr nsName.2 result.name
      , ns := nsName.1
      , problem := e.Text
      , solution :=
          some (jsOrStr (some e.KubernetesDoc)
            "Check k8sgpt documentation for more details")
      , severity := determineSeverity e.Text })

/-- convertK8sGPTToIssues of k8sgpt-adapter.ts (lines 225-259) over the
typed output: missing or non-array results yield zero issues, otherwise
the per-result issues are concatenated in result order. -/
def convertK8sGPTToIssues (output : K8sGPTOutput) : List Issue :=
  match output.results with
  | none => []
  | some results => results.flatMap convertResult

/-- The options argument of runK8sGPTAnalysis.  The TypeScript field
namespace is renamed ns (Lean keyword). -/
structure RunOpts where
  filters : List String
  ns : Option String
  allNamespaces : Bool
deriving DecidableEq, Repr

/-- The argument list built by runK8sGPTAnalysis (k8sgpt-adapter.ts lines
178-190).  A namespace that is undefined or the empty string (JS falsy)
adds no flag; allNamespaces adds no flag at all. -/
def buildArgs (o : RunOpts) : List String :=
  ["analyze", "--output=json"]
    ++ (if o.filters.length > 0
        then ["--filter=" ++ joinWith "," o.filters] else [])
    ++ (match o.ns with
        | some n => if n == "" then [] else ["--namespace=" ++ n]
        | none => [])

/-- The audit command string: k8sgpt followed by the space-joined args
(k8sgpt-adapter.ts line 193). -/
def buildCommand (o : RunOpts) : String :=
  "k8sgpt " ++ joinWith " " (buildArgs o)

/-- Outcome of one execFile call of the k8sgpt binary.  ok carries the
already-JSON-parsed stdout; enoent models error.code === ENOENT; fail
models every other execution or JSON-parse failure, carrying the message
the thrown error is rethrown with. -/
inductive ExecOutcome
  | ok (output : K8sGPTOutput)
  | enoent
  | fail (msg : String)
deriving DecidableEq, Repr

/-- runK8sGPTAnalysis of k8sgpt-adapter.ts (lines 172-220), parameterized
by the subprocess behaviour.  On success it returns the converted issues
together with the audit command; ENOENT is mapped to the dedicated
installation-missing message; any other failure is rethrown unchanged. -/
def runK8sGPTAnalysis (exec : String → List String → ExecOutcome)
    (o : RunOpts) : Except String (List Issue × String) :=
  let args := buildArgs o
  let command := "k8sgpt " ++ joinWith " " args
  match exec "k8sgpt" args with
  | ExecOutcome.ok output =>
      Except.ok (convertK8sGPTToIssues output, command)
  | ExecOutcome.enoent =>
      Except.error "k8sgpt is not installed. Please install it to use this tool."
  | ExecOutcome.fail msg => Except.error msg

/-- AVAILABLE_FILTERS of analyzer.ts (lines 11-36). -/
def AVAILABLE_FILTERS : List String :=
  [ "Pod", "Service", "Deployment", "ReplicaSet", "StatefulSet"
  , "PersistentVolumeClaim", "Ingress", "Node", "CronJob", "Job"
  , "HorizontalPodAutoscaler", "NetworkPolicy"
  , "MutatingWebhookConfiguration", "ValidatingWebhookConfiguration"
  , "ConfigMap", "ClusterExtension", "Log", "GatewayClass", "Gateway"
  , "HTTPRoute", "Storage", "Security", "ClusterCatalog"
  , "PodDisruptionBudget" ]

/-- AnalyzeOptions of analyzer.ts (lines 5-9). -/
structure AnalyzeOptions where
  namespaces : Option (List String)
  allNamespaces : Bool
  filters : Option (List String)
deriving DecidableEq, Repr

/-- Filter resolution of analyze (analyzer.ts lines 127-129):
options.filters when present and non-empty, else all filters. -/
def resolveFilters (opts : AnalyzeOptions) : List String :=
  match opts.filters with
  | some fs => if fs.length > 0 then fs else AVAILABLE_FILTERS
  | none => AVAILABLE_FILTERS

/-- The observable outcome of one analyze call: accumulated issues, the
audit command strings, and one RunOpts record per adapter invocation
actually performed, in invocation order. -/
structure AnalyzeOut where
  issues : List Issue
  commands : List String
  calls : List RunOpts
deriving DecidableEq, Repr

/-- The per-namespace loop of analyze (analyzer.ts lines 154-162): one
adapter invocation per namespace, appending issues and the audit
command; a thrown invocation error aborts the whole loop (analyze has no
try/catch). -/
def analyzeLoop (exec : String → List String → ExecOutcome)
    (filters : List String) :
    List String → AnalyzeOut → Except String AnalyzeOut
  | [], acc => Except.ok acc
  | n :: rest, acc =>
    match runK8sGPTAnalysis exec { filters := filters, ns := some n, allNamespaces := false } with
    | Except.error e => Except.error e
    | Except.ok r =>
      analyzeLoop exec filters rest
        { issues := acc.issues ++ r.1
        , commands := acc.commands ++ [r.2]
        , calls := acc.calls ++ [{ filters := filters, ns := some n, allNamespaces := false }] }

/-- The all-namespaces branch of analyze (analyzer.ts lines 141-150 and
163-173): a single adapter invocation with no namespace. -/
def analyzeAll (exec : String → List String → ExecOutcome)
    (filters : List String) : Except String AnalyzeOut :=
  match runK8sGPTAnalysis exec { filters := filters, ns := none, allNamespaces := true } with
  | Except.error e => Except.error e
  | Except.ok r =>
    Except.ok { issues := r.1, commands := [r.2]
              , calls := [{ filters := filters, ns := none, allNamespaces := true }] }

/-- The scope-selection core of analyze (analyzer.ts lines 124-184):
allNamespaces is tested first; otherwise a present non-empty namespace
list is looped over; otherwise the all-namespaces invocation runs.  The
cluster lookup, summary and timestamp of the final AnalysisResult are
modelled separately (summarizeIssues). -/
def analyze (exec : String → List String → ExecOutcome)
    (opts : AnalyzeOptions) : Except String AnalyzeOut :=
  let filters := resolveFilters opts
  if opts.allNamespaces then
    analyzeAll exec filters
  else
    match opts.namespaces with
    | some nss =>
      if nss.length > 0 then
        analyzeLoop exec filters nss { issues := [], commands := [], calls := [] }
      else
        analyzeAll exec filters
    | none => analyzeAll exec filters

/-- The fields of a CoreV1Event that analyzePods reads.  lastTimestamp is
a millisecond timestamp; none models an absent field. -/
structure CoreV1Event where
  type : Option String
  reason : Option String
  message : Option String
  lastTimestamp : Option Int
deriving DecidableEq, Repr

/-- The recency predicate of analyzePods (analyzer.ts lines 252-257): an
event with no lastTimestamp is dropped; otherwise its time must be
strictly inside the trailing one-hour window. -/
def isRecent (now : Int) (e : CoreV1Event) : Bool :=
  match e.lastTimestamp with
  | none => false
  | some t => now - 3600000 < t

/-- The recentEvents filter of analyzePods. -/
def recentEvents (now : Int) (events : List CoreV1Event) : List CoreV1Event :=
  events.filter (isRecent now)

/-- The errorEvents filter of analyzePods (lines 259-261). -/
def isWarningOrError (e : CoreV1Event) : Bool :=
  e.type == some "Warning" || e.type == some "Error"

/-- The Map key of the dedup loop (line 266): JS template join of reason
and message with a hyphen, so distinct pairs can collide. -/
def eventKey (e : CoreV1Event) : String :=
  jsTemplate e.reason ++ "-" ++ jsTemplate e.message

/-- One iteration of the dedup loop of analyzePods (lines 264-272) over an
insertion-ordered association list modelling the JS Map: a new key is
appended; an existing key is replaced only when both timestamps are
present and the new one is strictly later. -/
def insertEvent (m : List (String × CoreV1Event)) (e : CoreV1Event) :
    List (String × CoreV1Event) :=
  let k := eventKey e
  match m.find? (fun p => p.1 == k) with
  | none => m ++ [(k, e)]
  | some old =>
    match e.lastTimestamp, old.2.lastTimestamp with
    | some tNew, some tOld =>
      if tOld < tNew then m.map (fun p => if p.1 == k then (k, e) else p) else m
    | _, _ => m

/-- The dedup loop of analyzePods followed by uniqueEvents.values():
insertion order of first key occurrence is preserved. -/
def dedupEvents (events : List CoreV1Event) : List CoreV1Event :=
  (events.foldl insertEvent []).map (fun p => p.2)

/-- The issue built for one surviving event (analyzer.ts lines 275-288). -/
def eventIssue (podName podNamespace : String) (e : CoreV1Event) : Issue :=
  { kind := "Pod"
  , name := podName
  , ns := some podNamespace
  , problem := jsOrStr e.reason "Unknown" ++ ": "
      ++ jsOrStr e.message "No details available"
  , solution := some "Check pod logs and events for more details"
  , severity := if e.type == some "Error" then Severity.critical else Severity.warning }

/-- The event pipeline of analyzePods for one pod (analyzer.ts lines
248-289): recency filter, type filter, dedup, then one issue per
survivor. -/
def podEventIssues (podName podNamespace : String) (now : Int)
    (events : List CoreV1Event) : List Issue :=
  (dedupEvents ((recentEvents now events).filter isWarningOrError)).map
    (eventIssue podName podNamespace)

/-- The timestamp of an event, defaulting to 0; only used on events whose
timestamp is present. -/
def tsv (e : CoreV1Event) : Int := (e.lastTimestamp).getD 0

/-- Normalization plus summarization over one raw external output: the
pure pipeline whose determinism claim C9 is about. -/
def pipeline (output : K8sGPTOutput) :
    List Issue × (Nat × Nat × Nat × Nat) :=
  let issues := convertK8sGPTToIssues output
  (issues, summarizeIssues issues)

/-- A JavaScript runtime value as it can appear after JSON.parse, plus
undefined (the result of reading an absent property). -/
inductive JsonVal
  | undef
  | null
  | bool (b : Bool)
  | num (n : Int)
  | str (s : String)
  | arr (elems : List JsonVal)
  | obj (fields : List (String × JsonVal))

/-- JS property read v.key: throws a TypeError on null and undefined,
yields undefined on every other non-object, looks the key up on an
object. -/
def jsMember (v : JsonVal) (key : String) : Except String JsonVal :=
  match v with
  | JsonVal.undef => Except.error "TypeError"
  | JsonVal.null => Except.error "TypeError"
  | JsonVal.obj fields =>
    Except.ok (match fields.find? (fun p => p.1 == key) with
      | some p => p.2
      | none => JsonVal.undef)
  | _ => Except.ok JsonVal.undef

/-- JS falsiness of a runtime value. -/
def jsFalsy (v : JsonVal) : Bool :=
  match v with
  | JsonVal.undef => true
  | JsonVal.null => true
  | JsonVal.bool b => !b
  | JsonVal.num n => n == 0
  | JsonVal.str s => s == ""
  | _ => false

/-- Array.isArray. -/
def jsIsArray (v : JsonVal) : Bool :=
  match v with
  | JsonVal.arr _ => true
  | _ => false

/-- The elements of an array value. -/
def jsElems (v : JsonVal) : List JsonVal :=
  match v with
  | JsonVal.arr xs => xs
  | _ => []

/-- JS v.includes(sub): strings test substring containment, arrays test
membership of the string (strict equality), every other receiver throws a
TypeError. -/
def jsIncludes (v : JsonVal) (sub : String) : Except String Bool :=
  match v with
  | JsonVal.str s => Except.ok (containsSub s sub)
  | JsonVal.arr xs =>
    Except.ok (xs.any (fun x => match x with
      | JsonVal.str t => t == sub
      | _ => false))
  | _ => Except.error "TypeError"

/-- JS v.split(sep) followed by destructuring the first two elements:
only strings have split; the pieces come back as string values, absent
positions as undefined. -/
def jsSplitTwo (v : JsonVal) (c : Char) : Except String (JsonVal × JsonVal) :=
  match v with
  | JsonVal.str s =>
    let parts := splitChar c s
    Except.ok
      ( match parts.get? 0 with
        | some p => JsonVal.str p
        | none => JsonVal.undef
      , match parts.get? 1 with
        | some p => JsonVal.str p
        | none => JsonVal.undef )
  | _ => Except.error "TypeError"

/-- JS a || b over runtime values. -/
def jsOrVal (a b : JsonVal) : JsonVal :=
  if jsFalsy a then b else a

/-- determineSeverity applied to a runtime value: errorText.toLowerCase()
throws a TypeError unless errorText is a string. -/
def jsDetermineSeverity (v : JsonVal) : Except String Severity :=
  match v with
  | JsonVal.str s => Except.ok (determineSeverity s)
  | _ => Except.error "TypeError"

/-- The issue record as the untyped conversion loop actually builds it:
kind, name, namespace and solution are whatever runtime values the input
carried; problem is a string because a non-string Text makes
determineSeverity throw first. -/
structure JIssue where
  kind : JsonVal
  name : JsonVal
  ns : JsonVal
  problem : String
  solution : JsonVal
  severity : Severity

/-- The inner error loop of convertK8sGPTToIssues over runtime values
(k8sgpt-adapter.ts lines 246-255). -/
def convertErrorsJS (result nsV nV nameV : JsonVal) :
    List JsonVal → Except String (List JIssue)
  | [] => Except.ok []
  | ev :: rest =>
    match jsMember ev "Text" with
    | Except.error e => Except.error e
    | Except.ok textV =>
      match jsDetermineSeverity textV with
      | Except.error e => Except.error e
      | Except.ok sev =>
        match textV with
        | JsonVal.str text =>
          match jsMember ev "KubernetesDoc" with
          | Except.error e => Except.error e
          | Except.ok docV =>
            match jsMember result "kind" with
            | Except.error e => Except.error e
            | Except.ok kindV =>
              match convertErrorsJS result nsV nV nameV rest with
              | Except.error e => Except.error e
              | Except.ok restIssues =>
                Except.ok
                  ({ kind := kindV
                   , name := jsOrVal nV nameV
                   , ns := nsV
                   , problem := text
                   , solution := jsOrVal docV
                       (JsonVal.str "Check k8sgpt documentation for more details")
                   , severity := sev } :: restIssues)
        | _ => Except.error "TypeError"

/-- The outer results loop of convertK8sGPTToIssues over runtime values
(k8sgpt-adapter.ts lines 234-256): the split of result.name runs before
the error-field shape check, so a malformed name throws even when the
finding would later be skipped. -/
def convertResultsJS : List JsonVal → Except String (List JIssue)
  | [] => Except.ok []
  | r :: rest =>
    match jsMember r "name" with
    | Except.error e => Except.error e
    | Except.ok nameV =>
      match jsIncludes nameV "/" with
      | Except.error e => Except.error e
      | Except.ok inc =>
        match (if inc then jsSplitTwo nameV '/'
               else Except.ok (JsonVal.undef, nameV)) with
        | Except.error e => Except.error e
        | Except.ok nsName =>
          match jsMember r "error" with
          | Except.error e => Except.error e
          | Except.ok errV =>
            if jsFalsy errV || !(jsIsArray errV) then
              convertResultsJS rest
            else
              match convertErrorsJS r nsName.1 nsName.2 nameV (jsElems errV) with
              | Except.error e => Except.error e
              | Except.ok here =>
                match convertResultsJS rest with
                | Except.error e => Except.error e
                | Except.ok there => Except.ok (here ++ there)

/-- convertK8sGPTToIssues over an arbitrary runtime value, tracking where
the TypeScript code can throw (k8sgpt-adapter.ts lines 225-259). -/
def convertK8sGPTToIssuesJS (output : JsonVal) :
    Except String (List JIssue) :=
  match jsMember output "results" with
  | Except.error e => Except.error e
  | Except.ok resultsV =>
    if jsFalsy resultsV || !(jsIsArray resultsV) then
      Except.ok []
    else
      convertResultsJS (jsElems resultsV)

/-- Helper: the three severity filters partition any issue list. -/
lemma severity_filter_sum (L : List Issue) :
    (L.filter (fun i => i.severity == Severity.critical)).length
      + (L.filter (fun i => i.severity == Severity.warning)).length
      + (L.filter (fun i => i.severity == Severity.info)).length
      = L.length := by
  induction L with
  | nil => rfl
  | cons a l ih =>
    cases h : a.severity <;>
      simp [List.filter_cons, h] <;> omega

/-- Helper: hasCriticalKeyword spelled as the or-chain of the source. -/
lemma hasCriticalKeyword_eq (t : String) :
    hasCriticalKeyword t =
      (containsSub t "crash" || containsSub t "failed" || containsSub t "error"
        || containsSub t "deadline exceeded" || containsSub t "oomkilled") := by
  simp [hasCriticalKeyword, criticalKeywords, Bool.or_assoc]

/-- Helper: hasWarningKeyword spelled as the or-chain of the source. -/
lemma hasWarningKeyword_eq (t : String) :
    hasWarningKeyword t =
      (containsSub t "warning" || containsSub t "pending"
        || containsSub t "unschedulable") := by
  simp [hasWarningKeyword, warningKeywords, Bool.or_assoc]

/-- C1: for every issue list L the summary satisfies total = length L,
each severity count is the number of issues of that severity, and the
three severity counts sum to total. -/
theorem summarize_consistent (L : List Issue) :
    (summarizeIssues L).1 = L.length
    ∧ (summarizeIssues L).2.1
        = L.countP (fun i => i.severity == Severity.critical)
    ∧ (summarizeIssues L).2.2.1
        = L.countP (fun i => i.severity == Severity.warning)
    ∧ (summarizeIssues L).2.2.2
        = L.countP (fun i => i.severity == Severity.info)
    ∧ (summarizeIssues L).2.1 + (summarizeIssues L).2.2.1
        + (summarizeIssues L).2.2.2 = (summarizeIssues L).1 := by
  refine ⟨rfl, ?_, ?_, ?_, ?_⟩
  · simp [summarizeIssues, List.countP_eq_length_filter]
  · simp [summarizeIssues, List.countP_eq_length_filter]
  · simp [summarizeIssues, List.countP_eq_length_filter]
  · simpa [summarizeIssues] using severity_filter_sum L

/-- C2: the severity classifier is total and matches the two ordered
keyword sets case-insensitively, with critical checked first; the spec's
example inputs classify as stated. -/
theorem determineSeverity_spec :
    (∀ s : String, hasCriticalKeyword (lowerString s) = true →
      determineSeverity s = Severity.critical)
    ∧ (∀ s : String, hasCriticalKeyword (lowerString s) = false →
        hasWarningKeyword (lowerString s) = true →
        determineSeverity s = Severity.warning)
    ∧ (∀ s : String, hasCriticalKeyword (lowerString s) = false →
        hasWarningKeyword (lowerString s) = false →
        determineSeverity s = Severity.info)
    ∧ (∀ s : String, determineSeverity s = Severity.critical
        ∨ determineSeverity s = Severity.warning
        ∨ determineSeverity s = Severity.info)
    ∧ determineSeverity "OOMKilled container" = Severity.critical
    ∧ determineSeverity "crash loop" = Severity.critical
    ∧ determineSeverity "Pod Pending" = Severity.warning
    ∧ determineSeverity "" = Severity.info := by
  refine ⟨?_, ?_, ?_, ?_, by decide, by decide, by decide, by decide⟩
  · intro s h
    rw [hasCriticalKeyword_eq] at h
    simp [determineSeverity, h]
  · intro s h1 h2
    rw [hasCriticalKeyword_eq] at h1
    rw [hasWarningKeyword_eq] at h2
    simp [determineSeverity, h1, h2]
  · intro s h1 h2
    rw [hasCriticalKeyword_eq] at h1
    rw [hasWarningKeyword_eq] at h2
    simp [determineSeverity, h1, h2]
  · intro s
    simp only [determineSeverity]
    split
    · exact Or.inl rfl
    · split
      · exact Or.inr (Or.inl rfl)
      · exact Or.inr (Or.inr rfl)

/-- Witness for C2 at concrete inputs, discharging every hypothesis. -/
theorem determineSeverity_spec_witness :
    hasCriticalKeyword (lowerString "all good here") = false
    ∧ hasWarningKeyword (lowerString "all good here") = false
    ∧ determineSeverity "all good here" = Severity.info :=
  ⟨by decide, by decide,
    determineSeverity_spec.2.2.1 "all good here" (by decide) (by decide)⟩

/-- Helper: the namespace loop of analyze under a succeeding subprocess
appends one invocation per namespace in list order. -/
lemma analyzeLoop_ok (exec : String → List String → ExecOutcome)
    (outf : RunOpts → K8sGPTOutput) (filters : List String)
    (hok : ∀ ro : RunOpts, exec "k8sgpt" (buildArgs ro) = ExecOutcome.ok (outf ro)) :
    ∀ (nss : List String) (acc : AnalyzeOut),
      analyzeLoop exec filters nss acc = Except.ok
        { issues := acc.issues ++ nss.flatMap (fun n =>
            convertK8sGPTToIssues (outf { filters := filters, ns := some n, allNamespaces := false }))
        , commands := acc.commands ++ nss.map (fun n =>
            buildCommand { filters := filters, ns := some n, allNamespaces := false })
        , calls := acc.calls ++ nss.map (fun n =>
            ({ filters := filters, ns := some n, allNamespaces := false } : RunOpts)) } := by
  intro nss
  induction nss with
  | nil => intro acc; simp [analyzeLoop]
  | cons n rest ih =>
    intro acc
    rw [analyzeLoop, runK8sGPTAnalysis,
      hok { filters := filters, ns := some n, allNamespaces := false }]
    dsimp only
    rw [ih]
    simp [buildCommand]

/-- C4 (confirmed): with the all-namespaces flag unset and a non-empty
explicit namespace list, and every subprocess call succeeding, analyze
performs exactly one adapter invocation per listed namespace in list
order, concatenates the issues in invocation order, and records exactly
one audit command per namespace in the same order. -/
theorem analyze_namespace_list (exec : String → List String → ExecOutcome)
    (outf : RunOpts → K8sGPTOutput) (opts : AnalyzeOptions) (nss : List String)
    (hall : opts.allNamespaces = false)
    (hns : opts.namespaces = some nss)
    (hne : nss ≠ [])
    (hok : ∀ ro : RunOpts, exec "k8sgpt" (buildArgs ro) = ExecOutcome.ok (outf ro)) :
    analyze exec opts = Except.ok
      { issues := nss.flatMap (fun n => convertK8sGPTToIssues
          (outf { filters := resolveFilters opts, ns := some n, allNamespaces := false }))
      , commands := nss.map (fun n =>
          buildCommand { filters := resolveFilters opts, ns := some n, allNamespaces := false })
      , calls := nss.map (fun n =>
          ({ filters := resolveFilters opts, ns := some n, allNamespaces := false } : RunOpts)) } := by
  have hlen : nss.length > 0 := by
    cases nss with
    | nil => exact absurd rfl hne
    | cons a l => simp
  rw [analyze]
  simp only [hall, hns, Bool.false_eq_true, if_false]
  rw [if_pos hlen]
  rw [analyzeLoop_ok exec outf (resolveFilters opts) hok nss
    { issues := [], commands := [], calls := [] }]
  simp

/-- Witness for C4: two namespaces give exactly two invocations, two audit
commands, in request order. -/
theorem analyze_namespace_list_witness :
    analyze (fun _ _ => ExecOutcome.ok
        { provider := "", status := "", problems := 0, results := none })
      { namespaces := some ["a", "b"], allNamespaces := false, filters := some ["Pod"] }
    = Except.ok
      { issues := []
      , commands := [ "k8sgpt analyze --output=json --filter=Pod --namespace=a"
                    , "k8sgpt analyze --output=json --filter=Pod --namespace=b" ]
      , calls := [ { filters := ["Pod"], ns := some "a", allNamespaces := false }
                 , { filters := ["Pod"], ns := some "b", allNamespaces := false } ] } := by
  have h := analyze_namespace_list
    (fun _ _ => ExecOutcome.ok
      { provider := "", status := "", problems := 0, results := none })
    (fun _ => { provider := "", status := "", problems := 0, results := none })
    { namespaces := some ["a", "b"], allNamespaces := false, filters := some ["Pod"] }
    ["a", "b"] rfl rfl (by decide) (fun ro => rfl)
  exact h

/-- Counterexample to C3: with both the all-namespaces flag and the
explicit list ["a"] supplied, analyze performs the single all-namespaces
invocation, not the per-namespace one the claim promises. -/
theorem analyze_both_flags_counterexample :
    (analyze
        (fun _ _ => ExecOutcome.ok
          { provider := "", status := "", problems := 0, results := none })
        { namespaces := some ["a"], allNamespaces := true, filters := some ["Pod"] }).map
      (fun r => (r.commands, r.calls))
    = Except.ok (["k8sgpt analyze --output=json --filter=Pod"],
        [{ filters := ["Pod"], ns := none, allNamespaces := true }])
    ∧ ([({ filters := ["Pod"], ns := none, allNamespaces := true } : RunOpts)]
        ≠ [({ filters := ["Pod"], ns := some "a", allNamespaces := false } : RunOpts)]) :=
  ⟨rfl, by decide⟩

/-- C3 (amended): when the all-namespaces flag is set, exactly one scope
mode executes, and it is the all-namespaces one — the flag takes
precedence over any explicit namespace list: one single all-namespaces
invocation is performed. -/
theorem analyze_allNamespaces_precedence (exec : String → List String → ExecOutcome)
    (outf : RunOpts → K8sGPTOutput) (opts : AnalyzeOptions)
    (hall : opts.allNamespaces = true)
    (hok : ∀ ro : RunOpts, exec "k8sgpt" (buildArgs ro) = ExecOutcome.ok (outf ro)) :
    analyze exec opts = Except.ok
      { issues := convertK8sGPTToIssues
          (outf { filters := resolveFilters opts, ns := none, allNamespaces := true })
      , commands := [buildCommand
          { filters := resolveFilters opts, ns := none, allNamespaces := true }]
      , calls := [({ filters := resolveFilters opts, ns := none, allNamespaces := true } : RunOpts)] } := by
  rw [analyze]
  simp only [hall, if_pos]
  rw [analyzeAll, runK8sGPTAnalysis,
    hok { filters := resolveFilters opts, ns := none, allNamespaces := true }]
  simp [buildCommand]

/-- Witness for C3's amended theorem: both flags supplied, a single
all-namespaces invocation results. -/
theorem analyze_allNamespaces_precedence_witness :
    analyze (fun _ _ => ExecOutcome.ok
        { provider := "", status := "", problems := 0, results := none })
      { namespaces := some ["a"], allNamespaces := true, filters := some ["Pod"] }
    = Except.ok
      { issues := []
      , commands := ["k8sgpt analyze --output=json --filter=Pod"]
      , calls := [{ filters := ["Pod"], ns := none, allNamespaces := true }] } := by
  have h := analyze_allNamespaces_precedence
    (fun _ _ => ExecOutcome.ok
      { provider := "", status := "", problems := 0, results := none })
    (fun _ => { provider := "", status := "", problems := 0, results := none })
    { namespaces := some ["a"], allNamespaces := true, filters := some ["Pod"] }
    rfl (fun ro => rfl)
  exact h

/-- C9: the normalization-plus-summarization pipeline and the whole
analyze orchestration are deterministic functions of their inputs:
equal raw outputs give equal issues and summaries, and pointwise-equal
subprocess behaviour gives identical analyze results. -/
theorem pipeline_deterministic :
    (∀ o1 o2 : K8sGPTOutput, o1 = o2 → pipeline o1 = pipeline o2)
    ∧ (∀ (exec1 exec2 : String → List String → ExecOutcome) (opts : AnalyzeOptions),
        (∀ x args, exec1 x args = exec2 x args) →
        analyze exec1 opts = analyze exec2 opts) := by
  constructor
  · intro o1 o2 h
    rw [h]
  · intro e1 e2 opts h
    have he : e1 = e2 := funext (fun x => funext (fun a => h x a))
    rw [he]

/-- Witness for C9 at a concrete raw output and concrete subprocess
behaviour. -/
theorem pipeline_deterministic_witness :
    pipeline { provider := "p", status := "s", problems := 1, results := none }
      = pipeline { provider := "p", status := "s", problems := 1, results := none }
    ∧ analyze (fun _ _ => ExecOutcome.fail "x")
        { namespaces := none, allNamespaces := true, filters := none }
      = analyze (fun _ _ => ExecOutcome.fail "x")
        { namespaces := none, allNamespaces := true, filters := none } :=
  ⟨pipeline_deterministic.1
      { provider := "p", status := "s", problems := 1, results := none }
      { provider := "p", status := "s", problems := 1, results := none } rfl,
    pipeline_deterministic.2 (fun _ _ => ExecOutcome.fail "x")
      (fun _ _ => ExecOutcome.fail "x")
      { namespaces := none, allNamespaces := true, filters := none }
      (fun _ _ => rfl)⟩

/-- splitCharList never returns the empty list. -/
lemma splitCharList_ne_nil (c : Char) (l : List Char) :
    splitCharList c l ≠ [] := by
  induction l with
  | nil => simp [splitCharList]
  | cons x xs ih =>
    rw [splitCharList]
    by_cases hx : x == c
    · simp [hx]
    · simp only [hx]
      cases h : splitCharList c xs with
      | nil => simp
      | cons a t => simp

/-- A singleton needle is an infix exactly when its element occurs. -/
lemma isSubListOf_singleton (c : Char) (l : List Char) :
    isSubListOf [c] l = true ↔ c ∈ l := by
  induction l with
  | nil => simp [isSubListOf]
  | cons x xs ih =>
    rw [isSubListOf]
    simp [List.isPrefixOf, ih]

/-- The number of split segments is the separator count plus one. -/
lemma splitCharList_length (c : Char) (l : List Char) :
    (splitCharList c l).length = l.count c + 1 := by
  induction l with
  | nil => rfl
  | cons x xs ih =>
    rw [splitCharList]
    by_cases hx : x == c
    · have hc : x = c := by simpa using hx
      simp [hx, ih, hc, List.count_cons]
    · have hc : ¬ x = c := by simpa using hx
      simp only [hx]
      cases h : splitCharList c xs with
      | nil => exact absurd h (splitCharList_ne_nil c xs)
      | cons a t =>
        rw [h] at ih
        simp [List.count_cons, hc]
        simpa using ih

/-- The spec-side splitter, following the claim's words: the substring
before the first slash is the namespace, everything after the first
slash is the name; with no slash the namespace is absent and the whole
string is the name. -/
def specSplitFirst (s : String) : Option String × String :=
  match splitChar '/' s with
  | [] => (none, s)
  | [_] => (none, s)
  | h :: rest => (some h, joinWith "/" rest)

/-- Counterexample to C5: the code splits on every slash and keeps the
first two segments, so the composite name a/b/c yields name b, not the
everything-after-the-first-slash b/c the claim promises. -/
theorem composite_split_counterexample :
    (convertK8sGPTToIssues
        { provider := "", status := "", problems := 1
        , results := some [ { kind := "Pod", name := "a/b/c"
                            , error := some [{ Text := "t", KubernetesDoc := ""
                                             , Sensitive := [] }]
                            , details := "", parentObject := "" } ] }).map
      (fun i => (i.ns, i.name))
    = [(some "a", "b")]
    ∧ ("b" : String) ≠ "b/c" :=
  ⟨by decide, by decide⟩

/-- C5 (amended): every issue produced from a finding carries the first
split segment as namespace and the second split segment as name (the
whole composite name when that segment is empty); for composite names
with exactly one slash and a non-empty remainder this coincides with the
claim's split-at-the-first-slash, and without a slash the namespace is
absent and the whole string is the name. -/
theorem convert_composite_name (r : K8sGPTResult) (i : Issue)
    (hi : i ∈ convertResult r) :
    (containsSub r.name "/" = false → i.ns = none ∧ i.name = r.name)
    ∧ (containsSub r.name "/" = true →
        i.ns = (splitChar '/' r.name).get? 0
          ∧ i.name = jsOrStr ((splitChar '/' r.name).get? 1) r.name)
    ∧ (∀ a b : String, splitChar '/' r.name = [a, b] → b ≠ "" →
        (i.ns, i.name) = (some a, b)
          ∧ ((specSplitFirst r.name).1, (specSplitFirst r.name).2) = (some a, b)) := by
  have hfields : i.ns = (splitComposite r.name).1
      ∧ i.name = jsOrStr (splitComposite r.name).2 r.name := by
    rw [convertResult] at hi
    cases herr : r.error with
    | none => rw [herr] at hi; simp at hi
    | some errs =>
      rw [herr] at hi
      simp only [List.mem_map] at hi
      obtain ⟨e, _, rfl⟩ := hi
      exact ⟨rfl, rfl⟩
  refine ⟨?_, ?_, ?_⟩
  · intro hcs
    rw [hfields.1, hfields.2, splitComposite, hcs]
    simp [jsOrStr]
  · intro hcs
    rw [hfields.1, hfields.2, splitComposite, hcs]
    simp
  · intro a b hsplit hb
    have hcount : r.name.data.count '/' + 1 = 2 := by
      rw [← splitCharList_length]
      have : (splitChar '/' r.name).length = 2 := by rw [hsplit]; rfl
      simpa [splitChar] using this
    have hmem : '/' ∈ r.name.data := by
      have : 0 < r.name.data.count '/' := by omega
      exact List.count_pos_iff.mp this
    have hcs : containsSub r.name "/" = true := by
      have hd : ("/" : String).data = ['/'] := rfl
      rw [containsSub, hd]
      exact (isSubListOf_singleton '/' r.name.data).mpr hmem
    have h2 := hfields
    rw [splitComposite, hcs] at h2
    simp only [if_true] at h2
    rw [hsplit] at h2
    constructor
    · rw [h2.1, h2.2]
      simp [jsOrStr, hb]
    · rw [specSplitFirst, hsplit]
      rfl

/-- The spec's example finding, used by the witness of C5. -/
def exampleFinding : K8sGPTResult :=
  { kind := "Pod", name := "kube-system/coredns-abc"
  , error := some [{ Text := "t", KubernetesDoc := "", Sensitive := [] }]
  , details := "", parentObject := "" }

/-- The issue the code produces for exampleFinding, used by the witness
of C5. -/
def exampleIssue : Issue :=
  { kind := "Pod", name := "coredns-abc", ns := some "kube-system"
  , problem := "t"
  , solution := some "Check k8sgpt documentation for more details"
  , severity := Severity.info }

/-- Witness for C5's amended theorem at the spec's own example. -/
theorem convert_composite_name_witness :
    exampleIssue ∈ convertResult exampleFinding
    ∧ (exampleIssue.ns, exampleIssue.name)
      = (some "kube-system", "coredns-abc") := by
  have hmem : exampleIssue ∈ convertResult exampleFinding := by decide
  have h := (convert_composite_name exampleFinding exampleIssue hmem).2.2
    "kube-system" "coredns-abc" (by decide) (by decide)
  exact ⟨hmem, h.1⟩

/-- Counterexample to C7: normalization is not throw-free for every
parsed shape — a finding object with no name field makes the code call
includes on undefined before any shape check, throwing a TypeError
instead of skipping the finding. -/
theorem convertJS_throws_counterexample :
    convertK8sGPTToIssuesJS
        (JsonVal.obj [("results", JsonVal.arr [JsonVal.obj []])])
      = Except.error "TypeError" := rfl

/-- C7 (amended): a missing or non-array results field yields zero issues
without throwing, and a finding with a string name whose diagnostics
field is missing or not an array contributes zero issues while the rest
of the batch is still processed; but findings whose name field is
missing or not a string make the conversion throw. -/
theorem convertJS_tolerance :
    (∀ (output resultsV : JsonVal),
        jsMember output "results" = Except.ok resultsV →
        (jsFalsy resultsV || !(jsIsArray resultsV)) = true →
        convertK8sGPTToIssuesJS output = Except.ok [])
    ∧ (∀ (r : JsonVal) (rest : List JsonVal) (s : String) (errV : JsonVal),
        jsMember r "name" = Except.ok (JsonVal.str s) →
        jsMember r "error" = Except.ok errV →
        (jsFalsy errV || !(jsIsArray errV)) = true →
        convertResultsJS (r :: rest) = convertResultsJS rest) := by
  constructor
  · intro output resultsV h1 h2
    rw [convertK8sGPTToIssuesJS, h1]
    simp [h2]
  · intro r rest s errV h1 h2 h3
    rw [convertResultsJS, h1]
    dsimp only [jsIncludes]
    cases hc : containsSub s "/" <;> simp [jsSplitTwo, h2, h3]

/-- Witness for C7's amended theorem: a null results field and a finding
with a missing error field are both tolerated. -/
theorem convertJS_tolerance_witness :
    convertK8sGPTToIssuesJS (JsonVal.obj [("results", JsonVal.null)])
      = Except.ok []
    ∧ convertResultsJS [JsonVal.obj [("name", JsonVal.str "x")]]
      = convertResultsJS [] :=
  ⟨convertJS_tolerance.1 (JsonVal.obj [("results", JsonVal.null)])
      JsonVal.null rfl rfl,
    convertJS_tolerance.2 (JsonVal.obj [("name", JsonVal.str "x")]) []
      "x" JsonVal.undef rfl rfl rfl⟩

/-- Counterexample to C8: when the subprocess fails, runK8sGPTAnalysis
rethrows the bare error; the audit command string is not part of what
the caller receives. -/
theorem command_on_failure_counterexample :
    runK8sGPTAnalysis (fun _ _ => ExecOutcome.fail "boom")
        { filters := ["Pod"], ns := some "a", allNamespaces := false }
      = Except.error "boom"
    ∧ containsSub "boom"
        (buildCommand { filters := ["Pod"], ns := some "a", allNamespaces := false })
      = false :=
  ⟨rfl, by decide⟩

/-- C8 (amended): the audit command is a deterministic function of the
filters and the namespace alone, and on success it is returned to the
caller together with the issues; on subprocess failure the invocation
throws — the generic failure message verbatim, or the dedicated
installation-missing message for a missing executable — without the
command string. -/
theorem runK8sGPT_command_audit (exec : String → List String → ExecOutcome)
    (o o' : RunOpts) :
    (o.filters = o'.filters → o.ns = o'.ns → buildCommand o = buildCommand o')
    ∧ (∀ out : K8sGPTOutput,
        exec "k8sgpt" (buildArgs o) = ExecOutcome.ok out →
        runK8sGPTAnalysis exec o
          = Except.ok (convertK8sGPTToIssues out, buildCommand o))
    ∧ (∀ msg : String,
        exec "k8sgpt" (buildArgs o) = ExecOutcome.fail msg →
        runK8sGPTAnalysis exec o = Except.error msg)
    ∧ (exec "k8sgpt" (buildArgs o) = ExecOutcome.enoent →
        runK8sGPTAnalysis exec o
          = Except.error "k8sgpt is not installed. Please install it to use this tool.") := by
  refine ⟨?_, ?_, ?_, ?_⟩
  · intro hf hn
    rw [buildCommand, buildCommand, buildArgs, buildArgs, hf, hn]
  · intro out h
    rw [runK8sGPTAnalysis, h]
    rfl
  · intro msg h
    rw [runK8sGPTAnalysis, h]
  · intro h
    rw [runK8sGPTAnalysis, h]

/-- Witness for C8's amended theorem at concrete inputs. -/
theorem runK8sGPT_command_audit_witness :
    buildCommand { filters := ["Pod"], ns := some "a", allNamespaces := false }
      = buildCommand { filters := ["Pod"], ns := some "a", allNamespaces := true }
    ∧ runK8sGPTAnalysis
        (fun _ _ => ExecOutcome.ok
          { provider := "", status := "", problems := 0, results := none })
        { filters := ["Pod"], ns := some "a", allNamespaces := false }
      = Except.ok ([],
          buildCommand { filters := ["Pod"], ns := some "a", allNamespaces := false })
    ∧ runK8sGPTAnalysis (fun _ _ => ExecOutcome.enoent)
        { filters := ["Pod"], ns := some "a", allNamespaces := false }
      = Except.error "k8sgpt is not installed. Please install it to use this tool." :=
  ⟨(runK8sGPT_command_audit (fun _ _ => ExecOutcome.enoent)
      { filters := ["Pod"], ns := some "a", allNamespaces := false }
      { filters := ["Pod"], ns := some "a", allNamespaces := true }).1 rfl rfl,
    (runK8sGPT_command_audit
      (fun _ _ => ExecOutcome.ok
        { provider := "", status := "", problems := 0, results := none })
      { filters := ["Pod"], ns := some "a", allNamespaces := false }
      { filters := ["Pod"], ns := some "a", allNamespaces := false }).2.1
      { provider := "", status := "", problems := 0, results := none } rfl,
    (runK8sGPT_command_audit (fun _ _ => ExecOutcome.enoent)
      { filters := ["Pod"], ns := some "a", allNamespaces := false }
      { filters := ["Pod"], ns := some "a", allNamespaces := false }).2.2.2 rfl⟩


/-- Invariant of the dedup fold of analyzePods: ps are the events already
processed, m the association list modelling the JS Map.  Every stored
pair holds a processed event whose key it carries and whose timestamp is
a running maximum over all processed events of that key; every processed
event's key is present; keys are unique. -/
def DedupInv (ps : List CoreV1Event) (m : List (String × CoreV1Event)) : Prop :=
  (∀ p ∈ m, p.2 ∈ ps ∧ eventKey p.2 = p.1
      ∧ ∀ x ∈ ps, eventKey x = p.1 → tsv x ≤ tsv p.2)
  ∧ (∀ x ∈ ps, ∃ p ∈ m, p.1 = eventKey x)
  ∧ (m.map Prod.fst).Nodup

/-- One insertEvent step preserves the dedup invariant, provided all
events involved carry a timestamp. -/
lemma insertEvent_inv (ps : List CoreV1Event) (m : List (String × CoreV1Event))
    (e : CoreV1Event) (hinv : DedupInv ps m)
    (hps : ∀ x ∈ ps, x.lastTimestamp.isSome)
    (he : e.lastTimestamp.isSome) :
    DedupInv (ps ++ [e]) (insertEvent m e) := by
  obtain ⟨h1, h2, h3⟩ := hinv
  cases hf : m.find? (fun p => p.1 == eventKey e) with
  | none =>
    have hnok : ∀ p ∈ m, p.1 ≠ eventKey e := by
      intro p hp
      have hnp := List.find?_eq_none.mp hf p hp
      simpa using hnp
    have hins : insertEvent m e = m ++ [(eventKey e, e)] := by
      simp only [insertEvent]
      rw [hf]
    rw [hins]
    refine ⟨?_, ?_, ?_⟩
    · intro p hp
      rcases List.mem_append.mp hp with hp' | hp'
      · obtain ⟨hmem, hkey, hmax⟩ := h1 p hp'
        refine ⟨List.mem_append_left _ hmem, hkey, ?_⟩
        intro x hx hxk
        rcases List.mem_append.mp hx with hx' | hx'
        · exact hmax x hx' hxk
        · have hxe : x = e := List.mem_singleton.mp hx'
          rw [hxe] at hxk
          exact absurd hxk.symm (hnok p hp')
      · have hpe : p = (eventKey e, e) := List.mem_singleton.mp hp'
        rw [hpe]
        refine ⟨List.mem_append_right _ (List.mem_singleton.mpr rfl), rfl, ?_⟩
        intro x hx hxk
        have hxk2 : eventKey x = eventKey e := hxk
        rcases List.mem_append.mp hx with hx' | hx'
        · obtain ⟨q, hq, hqk⟩ := h2 x hx'
          exact absurd (hqk.trans hxk2) (hnok q hq)
        · have hxe : x = e := List.mem_singleton.mp hx'
          rw [hxe]
    · intro x hx
      rcases List.mem_append.mp hx with hx' | hx'
      · obtain ⟨q, hq, hqk⟩ := h2 x hx'
        exact ⟨q, List.mem_append_left _ hq, hqk⟩
      · have hxe : x = e := List.mem_singleton.mp hx'
        refine ⟨(eventKey e, e), List.mem_append_right _ (List.mem_singleton.mpr rfl), ?_⟩
        rw [hxe]
    · rw [List.map_append, List.nodup_append]
      refine ⟨h3, by simp, ?_⟩
      intro k hk hk2
      simp only [List.map_cons, List.map_nil, List.mem_singleton] at hk2
      obtain ⟨p, hp, hpk⟩ := List.mem_map.mp hk
      exact hnok p hp (hpk.trans hk2)
  | some old =>
    have holdmem : old ∈ m := List.mem_of_find?_eq_some hf
    have holdkey : old.1 = eventKey e := by
      have hh := List.find?_some hf
      simpa using hh
    obtain ⟨holdps, holdk2, holdmax⟩ := h1 old holdmem
    obtain ⟨tN, htN⟩ := Option.isSome_iff_exists.mp he
    obtain ⟨tO, htO⟩ := Option.isSome_iff_exists.mp (hps old.2 holdps)
    have htsvE : tsv e = tN := by simp [tsv, htN]
    have htsvO : tsv old.2 = tO := by simp [tsv, htO]
    have huniq : ∀ p ∈ m, p.1 = eventKey e → p = old := by
      intro p hp hpk
      exact List.inj_on_of_nodup_map h3 hp holdmem (hpk.trans holdkey.symm)
    by_cases hlt : tO < tN
    · have hins : insertEvent m e
          = m.map (fun p => if p.1 == eventKey e then (eventKey e, e) else p) := by
        simp only [insertEvent]
        rw [hf]
        dsimp only
        rw [htN, htO]
        simp [hlt]
      have hffst : ∀ p : String × CoreV1Event,
          (if p.1 == eventKey e then (eventKey e, e) else p).1 = p.1 := by
        intro p
        by_cases hpk : p.1 == eventKey e
        · rw [if_pos hpk]
          have hpe : p.1 = eventKey e := by simpa using hpk
          rw [hpe]
        · rw [if_neg hpk]
      have hfst : (m.map (fun p => if p.1 == eventKey e then (eventKey e, e) else p)).map Prod.fst
          = m.map Prod.fst := by
        rw [List.map_map]
        exact List.map_congr_left (fun p _ => hffst p)
      rw [hins]
      refine ⟨?_, ?_, ?_⟩
      · intro q hq
        obtain ⟨p, hp, hqp⟩ := List.mem_map.mp hq
        by_cases hpk : p.1 == eventKey e
        · have hpe : p.1 = eventKey e := by simpa using hpk
          have hq2 : q = (eventKey e, e) := by rw [← hqp, if_pos hpk]
          rw [hq2]
          refine ⟨List.mem_append_right _ (List.mem_singleton.mpr rfl), rfl, ?_⟩
          intro x hx hxk
          have hxk2 : eventKey x = eventKey e := hxk
          rcases List.mem_append.mp hx with hx' | hx'
          · have hle := holdmax x hx' (by rw [hxk2, holdkey])
            show tsv x ≤ tsv e
            rw [htsvE]
            rw [htsvO] at hle
            omega
          · have hxe : x = e := List.mem_singleton.mp hx'
            rw [hxe]
        · have hq2 : q = p := by rw [← hqp, if_neg hpk]
          rw [hq2]
          obtain ⟨hmem, hkey, hmax⟩ := h1 p hp
          refine ⟨List.mem_append_left _ hmem, hkey, ?_⟩
          intro x hx hxk
          rcases List.mem_append.mp hx with hx' | hx'
          · exact hmax x hx' hxk
          · have hxe : x = e := List.mem_singleton.mp hx'
            rw [hxe] at hxk
            exact absurd hxk.symm (by simpa using hpk)
      · intro x hx
        rcases List.mem_append.mp hx with hx' | hx'
        · obtain ⟨q, hq, hqk⟩ := h2 x hx'
          refine ⟨(if q.1 == eventKey e then (eventKey e, e) else q),
            List.mem_map_of_mem _ hq, ?_⟩
          rw [hffst q]
          exact hqk
        · have hxe : x = e := List.mem_singleton.mp hx'
          refine ⟨(if old.1 == eventKey e then (eventKey e, e) else old),
            List.mem_map_of_mem _ holdmem, ?_⟩
          rw [hffst old, holdkey, hxe]
      · rw [hfst]
        exact h3
    · have hins : insertEvent m e = m := by
        simp only [insertEvent]
        rw [hf]
        dsimp only
        rw [htN, htO]
        simp [hlt]
      rw [hins]
      refine ⟨?_, ?_, ?_⟩
      · intro p hp
        obtain ⟨hmem, hkey, hmax⟩ := h1 p hp
        refine ⟨List.mem_append_left _ hmem, hkey, ?_⟩
        intro x hx hxk
        rcases List.mem_append.mp hx with hx' | hx'
        · exact hmax x hx' hxk
        · have hxe : x = e := List.mem_singleton.mp hx'
          rw [hxe] at hxk ⊢
          have hpold : p = old := huniq p hp hxk.symm
          rw [hpold, htsvE, htsvO]
          omega
      · intro x hx
        rcases List.mem_append.mp hx with hx' | hx'
        · exact h2 x hx'
        · have hxe : x = e := List.mem_singleton.mp hx'
          rw [hxe]
          exact ⟨old, holdmem, holdkey⟩
      · exact h3

/-- The dedup fold maintains the invariant over a whole event list. -/
lemma foldl_insertEvent_inv :
    ∀ (l ps : List CoreV1Event) (m : List (String × CoreV1Event)),
      (∀ x ∈ ps, x.lastTimestamp.isSome) →
      (∀ x ∈ l, x.lastTimestamp.isSome) →
      DedupInv ps m →
      DedupInv (ps ++ l) (l.foldl insertEvent m)
  | [], ps, m, _, _, hinv => by simpa using hinv
  | e :: rest, ps, m, hps, hl, hinv => by
    have hstep := insertEvent_inv ps m e hinv hps (hl e (by simp))
    have hps2 : ∀ x ∈ ps ++ [e], x.lastTimestamp.isSome := by
      intro x hx
      rcases List.mem_append.mp hx with hx' | hx'
      · exact hps x hx'
      · have hxe : x = e := List.mem_singleton.mp hx'
        rw [hxe]
        exact hl e (by simp)
    have hrest := foldl_insertEvent_inv rest (ps ++ [e]) (insertEvent m e)
      hps2 (fun x hx => hl x (by simp [hx])) hstep
    simpa using hrest

/-- An event surviving the recency filter carries a timestamp. -/
lemma mem_recent_isSome (now : Int) (events : List CoreV1Event)
    (e : CoreV1Event) (he : e ∈ recentEvents now events) :
    e.lastTimestamp.isSome := by
  have hr := (List.mem_filter.mp he).2
  cases ht : e.lastTimestamp with
  | none => rw [isRecent, ht] at hr; simp at hr
  | some t => simp [ht]

/-- The behaviour of dedupEvents on any list of timestamped events: keys
of survivors are unique, every input key is represented, and each
survivor is an input event whose timestamp is maximal among the inputs
sharing its key. -/
lemma dedupEvents_spec (l : List CoreV1Event)
    (hl : ∀ x ∈ l, x.lastTimestamp.isSome) :
    ((dedupEvents l).map eventKey).Nodup
    ∧ (∀ x ∈ l, ∃ y ∈ dedupEvents l, eventKey y = eventKey x)
    ∧ (∀ y ∈ dedupEvents l,
        y ∈ l ∧ ∀ x ∈ l, eventKey x = eventKey y → tsv x ≤ tsv y) := by
  have hinv0 : DedupInv [] [] := by
    refine ⟨?_, ?_, ?_⟩ <;> simp
  have hinv := foldl_insertEvent_inv l [] [] (by simp) hl hinv0
  rw [List.nil_append] at hinv
  obtain ⟨h1, h2, h3⟩ := hinv
  have hkeys : (dedupEvents l).map eventKey
      = (l.foldl insertEvent []).map Prod.fst := by
    rw [dedupEvents, List.map_map]
    exact List.map_congr_left (fun p hp => (h1 p hp).2.1)
  refine ⟨?_, ?_, ?_⟩
  · rw [hkeys]
    exact h3
  · intro x hx
    obtain ⟨p, hp, hpk⟩ := h2 x hx
    refine ⟨p.2, ?_, ?_⟩
    · rw [dedupEvents]
      exact List.mem_map_of_mem _ hp
    · rw [(h1 p hp).2.1, hpk]
  · intro y hy
    rw [dedupEvents] at hy
    obtain ⟨p, hp, hpy⟩ := List.mem_map.mp hy
    obtain ⟨hmem, hkey, hmax⟩ := h1 p hp
    rw [← hpy]
    refine ⟨hmem, ?_⟩
    intro x hx hxk
    exact hmax x hx (by rw [hxk, hkey])

/-- The two colliding events of the C6 counterexample: distinct
(reason, message) pairs whose hyphen-joined keys coincide. -/
def evA : CoreV1Event :=
  { type := some "Warning", reason := some "a-b", message := some "c"
  , lastTimestamp := some 3600000 }

/-- Second colliding event of the C6 counterexample. -/
def evB : CoreV1Event :=
  { type := some "Warning", reason := some "a", message := some "b-c"
  , lastTimestamp := some 3600000 }

/-- Counterexample to C6: the dedup key is the hyphen-joined string of
reason and message, not the pair, so two in-window Warning events with
distinct (reason, message) pairs collapse into a single issue. -/
theorem event_dedup_key_counterexample :
    (evA.reason, evA.message) ≠ (evB.reason, evB.message)
    ∧ isRecent 3600000 evA = true ∧ isRecent 3600000 evB = true
    ∧ isWarningOrError evA = true ∧ isWarningOrError evB = true
    ∧ (podEventIssues "p" "ns" 3600000 [evA, evB]).length = 1 :=
  ⟨by decide, by decide, by decide, by decide, by decide, by decide⟩

/-- C6 (amended): the event-derived issues are exactly one per distinct
hyphen-joined reason-message key among the in-window Warning or Error
events; each survivor is such an event whose last-observed timestamp is
maximal within its key group (earliest seen wins ties), and its issue
severity is critical for Error events and warning for Warning events. -/
theorem podEventIssues_dedup (podName podNamespace : String) (now : Int)
    (events : List CoreV1Event) :
    (((dedupEvents ((recentEvents now events).filter isWarningOrError)).map eventKey).Nodup)
    ∧ (∀ x ∈ (recentEvents now events).filter isWarningOrError,
        ∃ y ∈ dedupEvents ((recentEvents now events).filter isWarningOrError),
          eventKey y = eventKey x)
    ∧ (∀ y ∈ dedupEvents ((recentEvents now events).filter isWarningOrError),
        y ∈ (recentEvents now events).filter isWarningOrError
        ∧ (∀ x ∈ (recentEvents now events).filter isWarningOrError,
            eventKey x = eventKey y → tsv x ≤ tsv y)
        ∧ (y.type = some "Error" →
            (eventIssue podName podNamespace y).severity = Severity.critical)
        ∧ (y.type = some "Warning" →
            (eventIssue podName podNamespace y).severity = Severity.warning))
    ∧ podEventIssues podName podNamespace now events
      = (dedupEvents ((recentEvents now events).filter isWarningOrError)).map
          (eventIssue podName podNamespace) := by
  have hl : ∀ x ∈ (recentEvents now events).filter isWarningOrError,
      x.lastTimestamp.isSome := by
    intro x hx
    exact mem_recent_isSome now events x (List.mem_filter.mp hx).1
  obtain ⟨hnd, hcov, hmax⟩ := dedupEvents_spec
    ((recentEvents now events).filter isWarningOrError) hl
  refine ⟨hnd, hcov, ?_, rfl⟩
  intro y hy
  obtain ⟨hmem, hm⟩ := hmax y hy
  refine ⟨hmem, hm, ?_, ?_⟩
  · intro hty
    simp [eventIssue, hty]
  · intro hty
    simp [eventIssue, hty]

/-- Witness event for C6. -/
def evW : CoreV1Event :=
  { type := some "Error", reason := some "r", message := some "m"
  , lastTimestamp := some 3600000 }

/-- Witness for C6's amended theorem at a concrete in-window Error
event. -/
theorem podEventIssues_dedup_witness :
    evW ∈ (recentEvents 3600000 [evW]).filter isWarningOrError
    ∧ ∃ y ∈ dedupEvents ((recentEvents 3600000 [evW]).filter isWarningOrError),
        eventKey y = eventKey evW :=
  ⟨by decide,
    (podEventIssues_dedup "p" "ns" 3600000 [evW]).2.1 evW (by decide)⟩

/-- C10: an event without a last-observed timestamp never passes the
recency filter and therefore never survives to produce an event-derived
issue. -/
theorem missing_timestamp_excluded (now : Int) (events : List CoreV1Event)
    (e : CoreV1Event) (h : e.lastTimestamp = none) :
    e ∉ recentEvents now events
    ∧ e ∉ dedupEvents ((recentEvents now events).filter isWarningOrError) := by
  have hnotrec : e ∉ recentEvents now events := by
    intro hmem
    have hs := mem_recent_isSome now events e hmem
    rw [h] at hs
    simp at hs
  refine ⟨hnotrec, ?_⟩
  intro hmem
  have hl : ∀ x ∈ (recentEvents now events).filter isWarningOrError,
      x.lastTimestamp.isSome := by
    intro x hx
    exact mem_recent_isSome now events x (List.mem_filter.mp hx).1
  have hspec := (dedupEvents_spec
    ((recentEvents now events).filter isWarningOrError) hl).2.2 e hmem
  exact hnotrec (List.mem_filter.mp hspec.1).1

/-- Witness event for C10: no timestamp. -/
def evNone : CoreV1Event :=
  { type := some "Warning", reason := some "r", message := some "m"
  , lastTimestamp := none }

/-- Witness for C10 at a concrete timestampless event. -/
theorem missing_timestamp_excluded_witness :
    evNone ∉ recentEvents 0 [evNone]
    ∧ evNone ∉ dedupEvents ((recentEvents 0 [evNone]).filter isWarningOrError) :=
  missing_timestamp_excluded 0 [evNone] evNone rfl
